import Mathlib

/-!
Shallow embedding of `packages/astro/src/runtime/server/render/component.ts`:
the server-side component rendering core (renderer resolution, component
dispatch, hydration-island building, string rendering).

JavaScript strings are modelled as Lean `String`; objects read from the
environment (props maps, rendered slot maps) are association lists with
string keys; JS exceptions are modelled with `Except`.  A renderer's
`check`/`renderToStaticMarkup` hooks are modelled by the outcome they have
for the one component/props/children triple of the call under study, which
is how the rendering core observes them.
-/

namespace AstroRender

/-! ## JS string helpers -/

/-- Truthiness of an optional JS string (`undefined` and `""` are falsy). -/
def jsTruthyOpt : Option String → Bool
  | none => false
  | some s => s != ""

/-- JS `String.prototype.includes`: substring containment. -/
def jsIncludes (s pat : String) : Bool :=
  decide (List.IsInfix pat.toList s.toList)

/-- JS `url.split('.').pop()`: the segment after the last dot (the whole
string when there is no dot). -/
def jsSplitPop (u : String) : String :=
  (u.splitOn ".").getLastD ""

/-- The character class of the `sanitizeElementName` regex
`/[&<>'"\s]+/`: the four markup-significant characters, the quote
characters and whitespace. -/
def isUnsafeNameChar (c : Char) : Bool :=
  ("&<>".toList.contains c) || ("'".toList.contains c) || ("\"".toList.contains c)
    || c.isWhitespace

/-- JS `String.prototype.trim` (whitespace from both ends). -/
def jsTrim (s : String) : String :=
  String.mk (((s.toList.dropWhile Char.isWhitespace).reverse.dropWhile
    Char.isWhitespace).reverse)

/-- JS `str.split(re)` for a regex matching maximal runs of characters
satisfying `p`.  The boolean argument records whether the previous
character was part of a separator run. -/
def splitRunsAux (p : Char → Bool) : List Char → List Char → Bool → List (List Char)
  | [], acc, _ => [acc.reverse]
  | c :: rest, acc, inSep =>
    if p c then
      if inSep then splitRunsAux p rest acc true
      else acc.reverse :: splitRunsAux p rest [] true
    else splitRunsAux p rest (c :: acc) false

/-- JS `str.split(/[...]+/)`: split on maximal runs of characters
satisfying `p`. -/
def splitRuns (p : Char → Bool) (l : List Char) : List (List Char) :=
  splitRunsAux p l [] false

/-! ## Data model -/

/-- Outcome of one renderer's `ssr.check` call for the component under
study: it returns a boolean or throws.  Thrown errors are identified by a
numeric label. -/
inductive CheckOutcome where
  | ok (b : Bool)
  | throws (e : Nat)
deriving DecidableEq, Repr

/-- Result of `ssr.renderToStaticMarkup`: `{ html, attrs }`. -/
structure MarkupResult where
  html : String
  attrs : Option String
deriving DecidableEq, Repr

/-- The `ssr` part of a loaded renderer, specialised to the call under
study. -/
structure RendererSSR where
  check : CheckOutcome
  renderToStaticMarkup : MarkupResult
  supportsAstroStaticSlot : Bool
deriving DecidableEq, Repr

/-- `SSRLoadedRenderer`: a registered UI-framework adapter. -/
structure SSRLoadedRenderer where
  name : String
  ssr : RendererSSR
  clientEntrypoint : Option String
deriving DecidableEq, Repr

/-- Result of reading the build-time `Renderer` marker property from the
component value: absent (or falsy), a tag string, or a proxy that throws
on property access. -/
inductive FrameworkTag where
  | absent
  | tagged (name : String)
  | throwsOnRead
deriving DecidableEq, Repr

/-- The component value reaching `renderFrameworkComponent`: a nullish
value, a custom-element tag string, or an opaque framework component
(carrying its marker-read behaviour and whether it is a platform
`HTMLElement` constructor). -/
inductive Component where
  | nullish
  | str (tag : String)
  | framework (tag : FrameworkTag) (isHTMLElement : Bool)
deriving DecidableEq, Repr

/-- JS falsiness of the component value (`null`, `undefined`, `""`). -/
def componentFalsy : Component → Bool
  | .nullish => true
  | .str s => s == ""
  | .framework _ _ => false

def isHTMLElementComponent : Component → Bool
  | .framework _ he => he
  | _ => false

/-- Hydration directive descriptor produced by the (external) directive
extractor. -/
structure Hydration where
  directive : String
  value : Option String
  componentExport : String
  componentUrl : String
deriving DecidableEq, Repr

/-! ## Renderer resolution -/

/-- `guessRenderers`: probable renderer names from the component URL's
extension. -/
def guessRenderers (componentUrl : Option String) : List String :=
  match componentUrl.map jsSplitPop with
  | some "svelte" => ["@astrojs/svelte"]
  | some "vue" => ["@astrojs/vue"]
  | some "jsx" => ["@astrojs/react", "@astrojs/preact", "@astrojs/solid-js", "@astrojs/vue (jsx)"]
  | some "tsx" => ["@astrojs/react", "@astrojs/preact", "@astrojs/solid-js", "@astrojs/vue (jsx)"]
  | _ =>
    ["@astrojs/react", "@astrojs/preact", "@astrojs/solid-js", "@astrojs/vue",
      "@astrojs/svelte", "@astrojs/lit"]

/-- `rendererAliases = new Map([['solid', 'solid-js']])`. -/
def rendererAliases : List (String × String) := [("solid", "solid-js")]

/-- `true` exactly when a renderer's check returned `true`. -/
def checkPassed (r : SSRLoadedRenderer) : Bool :=
  match r.ssr.check with
  | .ok true => true
  | _ => false

/-- The error thrown by a renderer's check, if any. -/
def checkThrownError (r : SSRLoadedRenderer) : Option Nat :=
  match r.ssr.check with
  | .throws e => some e
  | _ => none

/-- The `for (const r of renderers)` check loop (lines 130-139): returns
the selected renderer, the first error captured by `error ??= e`, and the
names of the renderers whose check hook was invoked. -/
def checkLoop : List SSRLoadedRenderer → Option SSRLoadedRenderer × Option Nat × List String
  | [] => (none, none, [])
  | r :: rest =>
    match r.ssr.check with
    | .ok true => (some r, none, [r.name])
    | .ok false =>
      let (sel, err, inv) := checkLoop rest
      (sel, err, r.name :: inv)
    | .throws e =>
      let (sel, _, inv) := checkLoop rest
      (sel, some e, r.name :: inv)

/-- The normal resolution path (lines 112-146, `metadata.hydrate !== 'only'`):
the pre-tag fast path followed by the check loop; re-throws the first
captured check error when no renderer was selected.  The second component
lists the renderers whose check hook was invoked. -/
def resolveNormal (tag : FrameworkTag) (renderers : List SSRLoadedRenderer) :
    Except Nat (Option SSRLoadedRenderer) × List String :=
  let isTagged : Bool :=
    match tag with
    | .tagged n => n != ""
    | _ => false
  let tagged : Option SSRLoadedRenderer :=
    if isTagged then
      match tag with
      | .tagged n => renderers.find? (fun r => r.name == n)
      | _ => none
    else none
  match tagged with
  | some r => (.ok (some r), [])
  | none =>
    let (sel, err, inv) := checkLoop renderers
    match sel, err with
    | none, some e => (.error e, inv)
    | _, _ => (.ok sel, inv)

/-- Attempt (a) of the `client:only` path (lines 163-171): look up an
explicitly passed renderer name, after the alias table, in both
`@astrojs/`-prefixed and bare form. -/
def resolveOnlyArgsLookup (hydrateArgs : Option String) (renderers : List SSRLoadedRenderer) :
    Option SSRLoadedRenderer :=
  match hydrateArgs with
  | some passed =>
    if passed != "" then
      let rn := (rendererAliases.lookup passed).getD passed
      renderers.find? (fun r => r.name == "@astrojs/" ++ rn || r.name == rn)
    else none
  | none => none

/-- Extension-name match used by attempt (c) of the `client:only` path
(lines 177-182).  When the component URL is absent the JS template
produces the literal name `@astrojs/undefined`. -/
def extNameMatch : Option String → String → Bool
  | some e, name => name == "@astrojs/" ++ e || name == e
  | none, name => name == "@astrojs/undefined"

/-- The `client:only` resolution path (lines 161-183): passed name, then
single registered non-pass-through renderer, then extension match. -/
def resolveOnly (hydrateArgs : Option String) (componentUrl : Option String)
    (renderers : List SSRLoadedRenderer) : Option SSRLoadedRenderer :=
  match resolveOnlyArgsLookup hydrateArgs renderers with
  | some r => some r
  | none =>
    let validRenderers := renderers.filter (fun r => r.name != "astro:jsx")
    if validRenderers.length = 1 then validRenderers.head?
    else (renderers.filter (fun r => extNameMatch (componentUrl.map jsSplitPop) r.name)).head?

/-! ## Custom-element string fallback -/

/-- `sanitizeElementName` (lines 379-383): if the tag has no unsafe
character return it unchanged, otherwise trim it, split it on runs of
unsafe characters, keep the first piece and trim again. -/
def sanitizeElementName (tag : String) : String :=
  if tag.toList.any isUnsafeNameChar then
    jsTrim (String.mk ((splitRuns isUnsafeNameChar (jsTrim tag).toList).headD []))
  else tag

/-- Modelled from the spec: the "known void element set" tested by
`voidElementNames` lives in `render/util.ts`, which is not under `src/`.
The standard HTML void elements are used, matched case-insensitively as
the upstream regex does. -/
def voidElementNames : List String :=
  ["area", "base", "br", "col", "command", "embed", "hr", "img", "input",
    "keygen", "link", "meta", "param", "source", "track", "wbr"]

def isVoidElement (tag : String) : Bool :=
  voidElementNames.contains (String.mk (tag.toList.map Char.toLower))

/-- Props after directive extraction, as an association list. -/
def Props := List (String × String)
deriving DecidableEq, Repr

/-- Modelled from the spec: `internalSpreadAttributes` (render/util.ts,
not under `src/`) renders the props as spread HTML attributes. -/
def internalSpreadAttributes (props : Props) : String :=
  String.join (props.map (fun kv => " " ++ kv.1 ++ "=\"" ++ kv.2 ++ "\""))

/-- Modelled from the spec: `serializeProps` (serialize.ts, not under
`src/`) produces a serialization of the hydration-relevant props. -/
def serializeProps (props : Props) : String :=
  String.join (props.map (fun kv => kv.1 ++ ":" ++ kv.2 ++ ";"))

/-- The custom-element fallback markup (lines 272-291): sanitize the tag,
spread the props, and self-close exactly when the joined child slots are
empty and the tag is a void element. -/
def stringComponentMarkup (tag : String) (props : Props)
    (children : List (String × String)) : String :=
  let T := sanitizeElementName tag
  let childSlots := String.join (children.map (fun kv => kv.2))
  "<" ++ T ++ internalSpreadAttributes props ++
    (if childSlots == "" && isVoidElement T then "/>"
     else ">" ++ childSlots ++ "</" ++ T ++ ">")

/-! ## Hash and island -/

/-- Modelled from the spec: `shorthash` (shorthash.ts, not under `src/`)
is a content-derived hash from strings to short strings; it is modelled
by a deterministic rolling hash rendered in hexadecimal. -/
def shorthash (s : String) : String :=
  String.mk (Nat.toDigits 16
    (s.toList.foldl (fun h c => (h * 33 + c.toNat) % 4294967296) 5381))

/-- The island identity hash (lines 316-321): `shorthash` of the
component export name, component URL, rendered html and serialized props
joined exactly as in the source template literal. -/
def astroIdOf (exportName componentUrl html serialized : String) : String :=
  shorthash ("<!--" ++ exportName ++ ":" ++ componentUrl ++ "-->\n" ++ html
    ++ "\n" ++ serialized)

/-- A hydration island element. -/
structure Island where
  astroId : String
  attrs : Option String
  props : List (String × String)
  children : String
deriving DecidableEq, Repr

/-- Modelled from the spec: `generateHydrateScript` (hydration.ts, not
under `src/`) builds the island bootstrap element from the renderer, the
hash id, the props/attrs and the encoded directive arguments; its
`children` field starts out empty and is overwritten by the caller. -/
def generateHydrateScriptModel (rendererName : String) (astroId : String)
    (attrs : Option String) (h : Hydration) : Island :=
  { astroId := astroId
    attrs := attrs
    props := [("component-url", h.componentUrl), ("component-export", h.componentExport),
      ("renderer-url", rendererName), ("client", h.directive), ("uid", astroId)] ++
      (match h.value with
       | some v => [("opts", v)]
       | none => [])
    children := "" }

/-! ## Slot reconciliation (lines 328-359) -/

/-- The marker tag name expected for slot content (lines 333-337). -/
def slotMarkerTagName (supports hydrateTruthy : Bool) : String :=
  if supports then
    if hydrateTruthy then "astro-slot" else "astro-static-slot"
  else "astro-slot"

/-- The expected marker opening tag for a slot key (line 338). -/
def expectedSlotHTML (supports hydrateTruthy : Bool) (key : String) : String :=
  let tagName := slotMarkerTagName supports hydrateTruthy
  if key == "default" then "<" ++ tagName ++ ">"
  else "<" ++ tagName ++ " name=\"" ++ key ++ "\">"

/-- The keys classified as unrendered (lines 329-346): every key whose
expected marker is missing from the markup; every key when the markup is
empty. -/
def unrenderedSlotKeys (html : String) (childKeys : List String)
    (supports hydrateTruthy : Bool) : List String :=
  if html != "" then
    childKeys.filter (fun key => !jsIncludes html (expectedSlotHTML supports hydrateTruthy key))
  else childKeys

/-- The inert template elements appended for unrendered slots
(lines 347-357). -/
def slotTemplates (children : List (String × String)) (unrendered : List String) : String :=
  String.join (unrendered.map (fun key =>
    "<template data-astro-template" ++ (if key != "default" then "=\"" ++ key ++ "\"" else "")
      ++ ">" ++ ((children.lookup key).getD "") ++ "</template>"))

/-- `island.children` (line 359): markup followed by the unrendered-slot
templates. -/
def islandChildren (html : String) (children : List (String × String))
    (supports hydrateTruthy : Bool) : String :=
  html ++ slotTemplates children
    (unrenderedSlotKeys html (children.map Prod.fst) supports hydrateTruthy)

/-! ## Static slot marker removal (lines 69-74) -/

/-- JS regex word character (`\w`), for the `\b` boundary in the slot
marker regexes. -/
def isWordChar (c : Char) : Bool := c.isAlphanum || c == '_'

/-- One match of `/<\/?TAG\b[^>]*>/` starting at the head of `l`; returns
the remainder after the match. -/
def matchSlotTagAt (tagName : List Char) (l : List Char) : Option (List Char) :=
  match l with
  | '<' :: rest =>
    let rest1 := match rest with
      | '/' :: r => r
      | _ => rest
    if tagName.isPrefixOf rest1 then
      let after := rest1.drop tagName.length
      let boundary := match after.head? with
        | some c => !isWordChar c
        | none => true
      if boundary then
        match after.dropWhile (fun c => c != '>') with
        | '>' :: r => some r
        | _ => none
      else none
    else none
  | _ => none

/-- Global replacement of the slot marker regex by the empty string,
scanning left to right; the fuel is the input length. -/
def removeTagAux (tagName : List Char) : Nat → List Char → List Char
  | 0, l => l
  | _ + 1, [] => []
  | fuel + 1, c :: rest =>
    match matchSlotTagAt tagName (c :: rest) with
    | some r => removeTagAux tagName fuel r
    | none => c :: removeTagAux tagName fuel rest

/-- `removeStaticAstroSlot` (lines 71-74): strip `<astro-static-slot ...>`
tags when the renderer supports static slot markers, `<astro-slot ...>`
tags otherwise. -/
def removeStaticAstroSlot (html : String) (supportsAstroStaticSlot : Bool) : String :=
  let tagName :=
    if supportsAstroStaticSlot then "astro-static-slot".toList else "astro-slot".toList
  String.mk (removeTagAux tagName html.toList.length html.toList)

/-! ## Render destination chunks -/

/-- A render destination chunk: string markup, the hydration-directive
instruction, the serialized island element, or a framework-native
`Response` object. -/
inductive Chunk where
  | html (s : String)
  | directive (h : Hydration)
  | island (i : Island)
  | response
deriving DecidableEq, Repr

/-- Modelled from the spec: `renderElement` (render/util.ts, not under
`src/`) serializes the island custom element. -/
def renderElementModel (i : Island) : String :=
  "<astro-island" ++ String.join (i.props.map (fun kv => " " ++ kv.1 ++ "=\"" ++ kv.2 ++ "\""))
    ++ ">" ++ i.children ++ "</astro-island>"

/-- Modelled from the spec: `chunkToString` (render/common.ts, not under
`src/`) turns a chunk into its string form; instruction and response
chunks contribute nothing in string mode. -/
def chunkToString : Chunk → String
  | .html s => s
  | .directive _ => ""
  | .island i => renderElementModel i
  | .response => ""

/-- JS `String(chunk)` as used by the doctype test: string chunks
stringify to themselves (island chunks are emitted as marked strings),
plain objects to `[object Object]`. -/
def jsStringOfChunk : Chunk → String
  | .html s => s
  | .directive _ => "[object Object]"
  | .island i => renderElementModel i
  | .response => "[object Response]"

/-! ## The renderFrameworkComponent pipeline -/

/-- Errors raised by the rendering core. -/
inductive RenderError where
  | undefinedComponent
  | checkError (e : Nat)
  | noClientOnlyHint
  | noMatchingRenderer
  | multipleCandidates
  | noClientEntrypoint (rendererName : String)
deriving DecidableEq, Repr

/-- The inputs of `renderFrameworkComponent`, with the external
collaborators already applied: `hydration`, `isPage` and `props` are the
output of the directive extractor, `children`/`slotInstructions` the
output of the slot renderer (rendered content per slot name), and
`renderHTMLElementOutput` models the output of the `renderHTMLElement`
fallback (dom.ts, not under `src/`). -/
structure FrameworkInput where
  comp : Component
  clientOnly : Bool
  hydration : Option Hydration
  isPage : Bool
  props : Props
  children : List (String × String)
  slotInstructions : List Chunk
  renderers : List SSRLoadedRenderer
  renderHTMLElementOutput : String
deriving DecidableEq, Repr

/-- What a successful render produces: the chunks written by the returned
render instance, plus instrumentation recording which renderers had their
`check` hook and their `renderToStaticMarkup` hook invoked. -/
structure FrameworkOutcome where
  chunks : List Chunk
  checksInvoked : List String
  markupCalls : List String
deriving DecidableEq, Repr

/-- Modelled from the spec: `renderSlotToString` applied to
`slots?.fallback` (slot.ts, not under `src/`) yields the rendered
fallback slot content, empty when no fallback slot is provided. -/
def fallbackOf (inp : FrameworkInput) : String :=
  (inp.children.lookup "fallback").getD ""

/-- The renderer/markup state after lines 185-250.  `renderer` is the
`renderer` variable at line 252, `markupCalls` the renderers whose
`renderToStaticMarkup` hook ran. -/
structure MarkupPhase where
  renderer : Option SSRLoadedRenderer
  html : String
  attrs : Option String
  markupCalls : List String
deriving DecidableEq, Repr

/-- Lines 185-250: handling of an unresolved renderer (errors, or the
single-probable-match diagnostic render), and the markup production for a
resolved renderer (fallback-slot render in `client:only` mode, static
markup otherwise). -/
def markupStep (comp : Component) (hydrate : Option String) (probable : List String)
    (validRenderers : List SSRLoadedRenderer) (fallbackRendered : String)
    (rendererSel : Option SSRLoadedRenderer) : Except RenderError MarkupPhase :=
  match rendererSel with
  | none =>
    if hydrate == some "only" then .error .noClientOnlyHint
    else
      match comp with
      | .str _ => .ok ⟨none, "", none, []⟩
      | _ =>
        match validRenderers.filter (fun r => probable.contains r.name) with
        | [] => .error .noMatchingRenderer
        | [r] => .ok ⟨some r, r.ssr.renderToStaticMarkup.html,
            r.ssr.renderToStaticMarkup.attrs, [r.name]⟩
        | _ => .error .multipleCandidates
  | some r =>
    if hydrate == some "only" then .ok ⟨some r, fallbackRendered, none, []⟩
    else .ok ⟨some r, r.ssr.renderToStaticMarkup.html,
      r.ssr.renderToStaticMarkup.attrs, [r.name]⟩

/-- The guard of lines 254-259: a renderer was resolved, it declares no
(truthy) client entrypoint, it is not the `@astrojs/lit` exception, and a
hydration directive is present. -/
def clientEntrypointMissing (rendererSel : Option SSRLoadedRenderer)
    (hydrate : Option String) : Bool :=
  match rendererSel with
  | some r => !jsTruthyOpt r.clientEntrypoint && r.name != "@astrojs/lit" && hydrate.isSome
  | none => false

/-- Lines 270-377: custom-element string fallback, then either the
plain render instance (no hydration) or the hydration-island instance. -/
def finishRender (inp : FrameworkInput) (mp : MarkupPhase) (inv : List String) :
    FrameworkOutcome :=
  let html :=
    match inp.comp with
    | .str s => if mp.html == "" then stringComponentMarkup s inp.props inp.children
        else mp.html
    | _ => mp.html
  match inp.hydration with
  | none =>
    { chunks := inp.slotInstructions ++
        (if inp.isPage || ((mp.renderer.map (fun r => r.name)).getD "") == "astro:jsx" then
          [Chunk.html html]
         else if html != "" then
          [Chunk.html (removeStaticAstroSlot html
            ((mp.renderer.map (fun r => r.ssr.supportsAstroStaticSlot)).getD false))]
         else [])
      checksInvoked := inv
      markupCalls := mp.markupCalls }
  | some h =>
    let astroId := astroIdOf h.componentExport h.componentUrl html (serializeProps inp.props)
    let island0 := generateHydrateScriptModel ((mp.renderer.map (fun r => r.name)).getD "")
      astroId mp.attrs h
    let supports := (mp.renderer.map (fun r => r.ssr.supportsAstroStaticSlot)).getD false
    let childrenStr := islandChildren html inp.children supports true
    let island : Island :=
      { island0 with children := childrenStr
                     props := island0.props ++
                       (if childrenStr != "" then [("await-children", "")] else []) }
    { chunks := inp.slotInstructions ++ [Chunk.directive h, Chunk.island island]
      checksInvoked := inv
      markupCalls := mp.markupCalls }

/-- Lines 185-377 composed: markup phase, client-entrypoint validation,
then the final render instance. -/
def afterResolution (inp : FrameworkInput) (hydrate : Option String)
    (probable : List String) (validRenderers : List SSRLoadedRenderer)
    (rendererSel : Option SSRLoadedRenderer) (inv : List String) :
    Except RenderError FrameworkOutcome :=
  match markupStep inp.comp hydrate probable validRenderers (fallbackOf inp) rendererSel with
  | .error e => .error e
  | .ok mp =>
    match mp.renderer with
    | some r =>
      if clientEntrypointMissing (some r) hydrate then .error (.noClientEntrypoint r.name)
      else .ok (finishRender inp mp inv)
    | none => .ok (finishRender inp mp inv)

/-- `renderFrameworkComponent` (lines 76-377): the falsy-component guard,
directive metadata, renderer resolution (normal or `client:only` path,
with the `HTMLElement` serialization fallback), then `afterResolution`. -/
def renderFrameworkComponentM (inp : FrameworkInput) : Except RenderError FrameworkOutcome :=
  if componentFalsy inp.comp && !inp.clientOnly then .error .undefinedComponent
  else
    let hydrate : Option String := inp.hydration.map (fun h => h.directive)
    let hydrateArgs : Option String := inp.hydration.bind (fun h => h.value)
    let componentUrl : Option String := inp.hydration.map (fun h => h.componentUrl)
    let probable := guessRenderers componentUrl
    let validRenderers := inp.renderers.filter (fun r => r.name != "astro:jsx")
    if hydrate != some "only" then
      let tag :=
        match inp.comp with
        | .framework t _ => t
        | _ => FrameworkTag.absent
      match resolveNormal tag inp.renderers with
      | (.error e, _) => .error (.checkError e)
      | (.ok rendererSel, inv) =>
        if rendererSel == none && isHTMLElementComponent inp.comp then
          .ok { chunks := [Chunk.html inp.renderHTMLElementOutput]
                checksInvoked := inv
                markupCalls := [] }
        else afterResolution inp hydrate probable validRenderers rendererSel inv
    else
      afterResolution inp hydrate probable validRenderers
        (resolveOnly hydrateArgs componentUrl inp.renderers) []

/-! ## Component dispatch (renderComponent, lines 449-474) -/

/-- The component value reaching `renderComponent`, already resolved if it
was a promise: the `Fragment` marker, an `astro:html` component (modelled
by the html its function returns for the rendered slot map), an Astro
component factory (modelled by the chunks its eagerly started instance
writes), or a framework/custom-element value. -/
inductive ComponentValue where
  | fragment
  | htmlComp (htmlOut : String)
  | factory (buffered : List Chunk)
  | plain (c : Component)
deriving DecidableEq, Repr

/-- `renderComponent` (lines 449-474) followed by running the returned
render instance against a destination, collecting the written chunks.
`renderFragmentComponent` (lines 385-396) writes only the rendered
`default` slot content; `renderHTMLComponent` (lines 398-414) writes the
stringified slot instructions followed by the component's html;
`renderAstroComponent` (lines 416-447) replays the buffered chunks. -/
def renderComponentM (cv : ComponentValue) (inp : FrameworkInput) :
    Except RenderError FrameworkOutcome :=
  match cv with
  | .fragment =>
    .ok { chunks := [Chunk.html ((inp.children.lookup "default").getD "")]
          checksInvoked := []
          markupCalls := [] }
  | .htmlComp htmlOut =>
    .ok { chunks := [Chunk.html
            (String.join (inp.slotInstructions.map chunkToString) ++ htmlOut)]
          checksInvoked := []
          markupCalls := [] }
  | .factory buffered =>
    .ok { chunks := buffered, checksInvoked := [], markupCalls := [] }
  | .plain c => renderFrameworkComponentM { inp with comp := c }

/-! ## renderComponentToString (lines 476-531) -/

/-- `'<!DOCTYPE html>'`, with a trailing newline unless `compressHTML`. -/
def doctypeStr (compress : Bool) : String :=
  if compress then "<!DOCTYPE html>" else "<!DOCTYPE html>\n"

/-- The test `/<!doctype html/i.test(String(chunk))` (line 503):
case-insensitive substring search, not anchored at the start. -/
def containsDoctype (s : String) : Bool :=
  jsIncludes (String.mk (s.toList.map Char.toLower)) "<!doctype html"

/-- One `destination.write` step of `renderComponentToString`
(lines 498-514) over the state (accumulated string, whether the first
page chunk was already seen). -/
def writeStep (isPage compress : Bool) (head : String) (st : String × Bool)
    (c : Chunk) : String × Bool :=
  let st1 :=
    if isPage && !st.2 then
      (if !containsDoctype (jsStringOfChunk c) then
        st.1 ++ doctypeStr compress ++ head
       else st.1, true)
    else st
  match c with
  | .response => st1
  | _ => (st1.1 ++ chunkToString c, st1.2)

/-- The accumulated string after writing every chunk (lines 497-517). -/
def renderChunksToString (isPage compress : Bool) (head : String)
    (chunks : List Chunk) : String :=
  (chunks.foldl (writeStep isPage compress head) ("", false)).1

/-- The plain concatenation of the chunks (no doctype/head injection);
`Response` chunks contribute nothing. -/
def chunksPlainString : List Chunk → String
  | [] => ""
  | c :: rest => chunkToString c ++ chunksPlainString rest

/-- `renderComponentToString` (lines 476-531): render the component and
fold its chunks through the page-aware destination.  `needsHead` models
`nonAstroPageNeedsHeadInjection(Component)` and `headContent` the chunks
of `maybeRenderHead` (head.ts, not under `src/`). -/
def renderComponentToStringM (cv : ComponentValue) (inp : FrameworkInput)
    (isPage compress needsHead : Bool) (headContent : String) :
    Except RenderError String :=
  let head := if needsHead then headContent else ""
  match renderComponentM cv inp with
  | .error e => .error e
  | .ok o => .ok (renderChunksToString isPage compress head o.chunks)

/-! ## Helper lemmas about the check loop -/

theorem checkLoop_sel (rs : List SSRLoadedRenderer) :
    (checkLoop rs).1 = rs.find? checkPassed := by
  induction rs with
  | nil => rfl
  | cons r rest ih =>
    cases h : r.ssr.check with
    | ok b => cases b <;> simp [checkLoop, List.find?_cons, checkPassed, h, ih]
    | throws e => simp [checkLoop, List.find?_cons, checkPassed, h, ih]

theorem checkLoop_err (rs : List SSRLoadedRenderer)
    (hnone : rs.find? checkPassed = none) :
    (checkLoop rs).2.1 = rs.findSome? checkThrownError := by
  induction rs with
  | nil => rfl
  | cons r rest ih =>
    cases h : r.ssr.check with
    | ok b =>
      cases b
      · simp only [List.find?_cons, checkPassed, h] at hnone
        simp [checkLoop, List.findSome?_cons, checkThrownError, h, ih hnone]
      · simp [List.find?_cons, checkPassed, h] at hnone
    | throws e =>
      simp [checkLoop, List.findSome?_cons, checkThrownError, h]

/-- Claim C1: in the normal resolution path (component not pre-tagged,
hydration directive not `only`), renderers are tried in registry order
and the first whose check returns `true` is selected; check exceptions
are recorded (first one only) without being re-raised immediately, and
the first captured exception is re-raised exactly when the whole
iteration selected no renderer and at least one check threw. -/
theorem normal_path_first_check_wins (rs : List SSRLoadedRenderer) :
    (resolveNormal FrameworkTag.absent rs).1 =
      match rs.find? checkPassed with
      | some r => Except.ok (some r)
      | none =>
        match rs.findSome? checkThrownError with
        | some e => Except.error e
        | none => Except.ok none := by
  have hsel := checkLoop_sel rs
  rcases hcl : checkLoop rs with ⟨sel, err, inv⟩
  rw [hcl] at hsel
  cases hf : rs.find? checkPassed with
  | some r =>
    simp only [hf] at hsel
    subst hsel
    simp [resolveNormal, hcl, hf]
  | none =>
    simp only [hf] at hsel
    subst hsel
    have herr := checkLoop_err rs hf
    rw [hcl] at herr
    simp only at herr
    subst herr
    cases hfs : rs.findSome? checkThrownError <;>
      simp [resolveNormal, hcl, hf, hfs]

/-- Claim C2: when the component carries a truthy build-time renderer-name
marker that matches a registered renderer by exact name, that renderer is
selected and no capability-check is invoked; an exception thrown while
reading the marker is treated as the marker being absent. -/
theorem pretagged_fast_path :
    (∀ (n : String) (rs : List SSRLoadedRenderer) (r : SSRLoadedRenderer),
      n ≠ "" → rs.find? (fun rr => rr.name == n) = some r →
      resolveNormal (FrameworkTag.tagged n) rs = (Except.ok (some r), [])) ∧
    (∀ rs : List SSRLoadedRenderer,
      resolveNormal FrameworkTag.throwsOnRead rs = resolveNormal FrameworkTag.absent rs) := by
  constructor
  · intro n rs r hn hfind
    have hb : (n != "") = true := bne_iff_ne.mpr hn
    simp [resolveNormal, hb, hfind]
  · intro rs
    rfl

def demoVue : SSRLoadedRenderer :=
  { name := "@astrojs/vue"
    ssr := { check := .ok true
             renderToStaticMarkup := { html := "<h1>V</h1>", attrs := none }
             supportsAstroStaticSlot := true }
    clientEntrypoint := some "/vue-client.js" }

def demoSvelte : SSRLoadedRenderer :=
  { name := "@astrojs/svelte"
    ssr := { check := .ok false
             renderToStaticMarkup := { html := "<h1>S</h1>", attrs := none }
             supportsAstroStaticSlot := false }
    clientEntrypoint := some "/svelte-client.js" }

def demoSolid : SSRLoadedRenderer :=
  { name := "@astrojs/solid-js"
    ssr := { check := .ok false
             renderToStaticMarkup := { html := "<h1>J</h1>", attrs := none }
             supportsAstroStaticSlot := false }
    clientEntrypoint := some "/solid-client.js" }

/-- Witness for the pre-tag fast path: a registry of two renderers, the
tag naming the second; it is selected with no check invoked. -/
theorem pretagged_fast_path_witness :
    resolveNormal (FrameworkTag.tagged "@astrojs/vue") [demoSvelte, demoVue] =
      (Except.ok (some demoVue), []) :=
  pretagged_fast_path.1 "@astrojs/vue" [demoSvelte, demoVue] demoVue
    (by decide) (by decide)

/-- Claim C3: resolution order of the `client:only` path: (a) an
explicitly passed renderer name, after the alias table, in prefixed or
bare form; (b) otherwise the single registered non-pass-through renderer,
regardless of any capability-check; (c) otherwise the first registered
renderer matching the component URL's extension. -/
theorem hydrate_only_resolution (args : Option String) (url : Option String)
    (rs : List SSRLoadedRenderer) :
    (∀ (passed : String) (r : SSRLoadedRenderer), args = some passed → passed ≠ "" →
      rs.find? (fun rr =>
          rr.name == "@astrojs/" ++ ((rendererAliases.lookup passed).getD passed) ||
          rr.name == (rendererAliases.lookup passed).getD passed) = some r →
      resolveOnly args url rs = some r) ∧
    (∀ r : SSRLoadedRenderer, resolveOnlyArgsLookup args rs = none →
      rs.filter (fun rr => rr.name != "astro:jsx") = [r] →
      resolveOnly args url rs = some r) ∧
    (resolveOnlyArgsLookup args rs = none →
      (rs.filter (fun rr => rr.name != "astro:jsx")).length ≠ 1 →
      resolveOnly args url rs =
        (rs.filter (fun rr => extNameMatch (url.map jsSplitPop) rr.name)).head?) ∧
    (∀ s : String, (rendererAliases.lookup s).getD s =
      if s == "solid" then "solid-js" else s) := by
  refine ⟨?_, ?_, ?_, ?_⟩
  · intro passed r hargs hne hfind
    subst hargs
    have hb : (passed != "") = true := bne_iff_ne.mpr hne
    simp [resolveOnly, resolveOnlyArgsLookup, hb, hfind]
  · intro r hlook hfilter
    simp [resolveOnly, hlook, hfilter]
  · intro hlook hlen
    simp [resolveOnly, hlook, hlen]
  · intro s
    by_cases hs : s = "solid"
    · subst hs; rfl
    · have hb : (s == "solid") = false := by
        simpa using hs
      simp [rendererAliases, List.lookup, hb]

/-- Witness for the `client:only` resolution: attempt (a) with the
`solid` alias selects the solid renderer; attempt (b) with a single
registered renderer selects it even though its check returns `false`. -/
theorem hydrate_only_resolution_witness :
    resolveOnly (some "solid") none [demoVue, demoSolid] = some demoSolid ∧
    resolveOnly none (some "/c.tsx") [demoSvelte] = some demoSvelte := by
  constructor
  · exact (hydrate_only_resolution (some "solid") none [demoVue, demoSolid]).1
      "solid" demoSolid rfl (by decide) (by decide)
  · exact (hydrate_only_resolution none (some "/c.tsx") [demoSvelte]).2.1
      demoSvelte (by decide) (by decide)

/-! ## Claim C4: slot reconciliation -/

/-- Claim C4: a slot key is classified unrendered exactly when the markup
does not contain its expected marker opening tag; when the markup is
empty every key is unrendered; each unrendered slot is wrapped in an
inert `<template data-astro-template>` element (with `="key"` for
non-default slots) appended after the markup; the marker is
`astro-static-slot` exactly when the renderer supports static slot
markers and no hydration is active, `astro-slot` otherwise. -/
theorem slot_reconciliation (html : String) (keys : List String) (supports hyd : Bool) :
    (html ≠ "" → ∀ key, (key ∈ unrenderedSlotKeys html keys supports hyd ↔
      key ∈ keys ∧ jsIncludes html (expectedSlotHTML supports hyd key) = false)) ∧
    (html = "" → unrenderedSlotKeys html keys supports hyd = keys) ∧
    (∀ children : List (String × String),
      islandChildren html children supports hyd =
        html ++ slotTemplates children
          (unrenderedSlotKeys html (children.map Prod.fst) supports hyd)) ∧
    (∀ (children : List (String × String)) (key : String),
      slotTemplates children [key] =
        "<template data-astro-template" ++
          (if key != "default" then "=\"" ++ key ++ "\"" else "") ++ ">" ++
          ((children.lookup key).getD "") ++ "</template>") ∧
    (slotMarkerTagName supports hyd =
      if supports = true ∧ hyd = false then "astro-static-slot" else "astro-slot") ∧
    (expectedSlotHTML supports hyd "default" = "<" ++ slotMarkerTagName supports hyd ++ ">") ∧
    (∀ key : String, key ≠ "default" → expectedSlotHTML supports hyd key =
      "<" ++ slotMarkerTagName supports hyd ++ " name=\"" ++ key ++ "\">") := by
  refine ⟨?_, ?_, ?_, ?_, ?_, ?_, ?_⟩
  · intro hne key
    have hb : (html != "") = true := bne_iff_ne.mpr hne
    simp [unrenderedSlotKeys, hb, List.mem_filter]
  · intro he
    subst he
    simp [unrenderedSlotKeys]
  · intro children
    rfl
  · intro children key
    simp [slotTemplates, String.join]
  · cases supports <;> cases hyd <;> simp [slotMarkerTagName]
  · rfl
  · intro key hk
    have hb : (key == "default") = false := by simpa using hk
    simp [expectedSlotHTML, hb]

/-- Witness for slot reconciliation at the spec's example: markup
containing `<astro-slot name="a">`, slots `a` and `b`; `b` is unrendered,
`a` is not; an empty markup leaves both unrendered. -/
theorem slot_reconciliation_witness :
    ("b" ∈ unrenderedSlotKeys "<p><astro-slot name=\"a\"></p>" ["a", "b"] false true ∧
      "a" ∉ unrenderedSlotKeys "<p><astro-slot name=\"a\"></p>" ["a", "b"] false true) ∧
    unrenderedSlotKeys "" ["a", "b"] false true = ["a", "b"] := by
  have h := slot_reconciliation "<p><astro-slot name=\"a\"></p>" ["a", "b"] false true
  have h0 := slot_reconciliation "" ["a", "b"] false true
  refine ⟨⟨?_, ?_⟩, h0.2.1 rfl⟩
  · exact (h.1 (by decide) "b").mpr (by decide)
  · intro hmem
    have hm := (h.1 (by decide) "a").mp hmem
    exact absurd hm.2 (by decide)

/-! ## Claim C5: custom-element string fallback -/

/-- Definition following the claim's words: sanitize by stripping
everything from the first whitespace or unsafe character onward (no
trimming). -/
def claimSanitize (tag : String) : String :=
  String.mk (tag.toList.takeWhile (fun c => !isUnsafeNameChar c))

/-- Definition following the claim's words: the custom-element output as
the claim describes it, using the claim's sanitization. -/
def claimStringComponentMarkup (tag : String) (props : Props)
    (children : List (String × String)) : String :=
  let T := claimSanitize tag
  let childSlots := String.join (children.map (fun kv => kv.2))
  "<" ++ T ++ internalSpreadAttributes props ++
    (if childSlots == "" && isVoidElement T then "/>"
     else ">" ++ childSlots ++ "</" ++ T ++ ">")

/-- The claim as stated: the code's output always agrees with the
claim-described output. -/
def stringMarkupClaim : Prop :=
  ∀ (tag : String) (props : Props) (children : List (String × String)),
    stringComponentMarkup tag props children = claimStringComponentMarkup tag props children

theorem mk_toList (s : String) : String.mk s.toList = s := rfl

theorem takeWhile_eq_self_of_all {p : Char → Bool} :
    ∀ {l : List Char}, (∀ c ∈ l, p c = true) → l.takeWhile p = l := by
  intro l
  induction l with
  | nil => intro _; rfl
  | cons c rest ih =>
    intro h
    rw [List.takeWhile_cons, if_pos (h c (by simp))]
    rw [ih (fun x hx => h x (by simp [hx]))]

theorem dropWhile_eq_self_of_all {p : Char → Bool} :
    ∀ {l : List Char}, (∀ c ∈ l, p c = false) → l.dropWhile p = l := by
  intro l
  induction l with
  | nil => intro _; rfl
  | cons c rest ih =>
    intro h
    rw [List.dropWhile_cons, if_neg (by simp [h c (by simp)])]

theorem jsTrim_eq_self_of_no_ws {s : String}
    (h : ∀ c ∈ s.toList, c.isWhitespace = false) : jsTrim s = s := by
  unfold jsTrim
  rw [dropWhile_eq_self_of_all h,
    dropWhile_eq_self_of_all (fun c hc => h c (List.mem_reverse.mp hc)),
    List.reverse_reverse]
  exact mk_toList s

theorem splitRunsAux_head (p : Char → Bool) :
    ∀ (l acc : List Char),
      (splitRunsAux p l acc false).headD [] = acc.reverse ++ l.takeWhile (fun c => !p c) := by
  intro l
  induction l with
  | nil => intro acc; simp [splitRunsAux]
  | cons c rest ih =>
    intro acc
    by_cases hp : p c = true
    · simp [splitRunsAux, hp, List.takeWhile_cons]
    · have hp2 : p c = false := by simpa using hp
      have ih2 := ih (c :: acc)
      simp only [List.headD_eq_head?_getD] at ih2
      simp [splitRunsAux, hp2, List.takeWhile_cons, ih2]

theorem whitespace_unsafe_char {c : Char} (h : c.isWhitespace = true) :
    isUnsafeNameChar c = true := by
  simp [isUnsafeNameChar, h]

theorem no_unsafe_no_ws {c : Char} (h : isUnsafeNameChar c = false) :
    c.isWhitespace = false := by
  cases hw : c.isWhitespace
  · rfl
  · exact absurd (whitespace_unsafe_char hw) (by simp [h])

/-- The code's sanitization is the claim's stripping applied to the
whitespace-trimmed tag. -/
theorem sanitizeElementName_eq (tag : String) :
    sanitizeElementName tag = claimSanitize (jsTrim tag) := by
  unfold sanitizeElementName claimSanitize
  by_cases hany : tag.toList.any isUnsafeNameChar = true
  · rw [if_pos hany]
    unfold splitRuns
    rw [splitRunsAux_head]
    simp only [List.reverse_nil, List.nil_append]
    apply jsTrim_eq_self_of_no_ws
    intro c hc
    have h1 : (!isUnsafeNameChar c) = true :=
      List.mem_takeWhile_imp (p := fun c => !isUnsafeNameChar c) hc
    exact no_unsafe_no_ws (by simpa using h1)
  · rw [if_neg hany]
    have hall : ∀ c ∈ tag.toList, isUnsafeNameChar c = false := by
      intro c hc
      cases hu : isUnsafeNameChar c
      · rfl
      · exact absurd (List.any_of_mem hc hu) hany
    rw [jsTrim_eq_self_of_no_ws (fun c hc => no_unsafe_no_ws (hall c hc))]
    rw [takeWhile_eq_self_of_all (fun c hc => by simp [hall c hc])]
    exact (mk_toList tag).symm

/-- Claim C5 counterexample: for the tag `" div"` (leading whitespace) the
code trims first and renders `<div></div>`, while the claim's
strip-from-the-first-whitespace rule yields an empty tag name. -/
theorem string_markup_counterexample :
    stringComponentMarkup " div" [] [] = "<div></div>" ∧
    claimStringComponentMarkup " div" [] [] = "<></>" ∧
    ¬ stringMarkupClaim := by
  refine ⟨by decide, by decide, ?_⟩
  intro h
  have h2 := h " div" [] []
  revert h2
  decide

/-- Claim C5 (amended): the string-component output sanitizes the tag by
first trimming surrounding whitespace and then stripping everything from
the first remaining whitespace or `& < > ' "` character onward, spreads
the original props as attributes, and self-closes with `/>` exactly when
the joined child slots are empty and the tag is in the void-element set,
otherwise wrapping the children as `>children</tag>`. -/
theorem string_component_fallback (tag : String) (props : Props)
    (children : List (String × String)) :
    sanitizeElementName tag = claimSanitize (jsTrim tag) ∧
    stringComponentMarkup tag props children =
      "<" ++ sanitizeElementName tag ++ internalSpreadAttributes props ++
        (if String.join (children.map (fun kv => kv.2)) = "" ∧
            isVoidElement (sanitizeElementName tag) = true
         then "/>"
         else ">" ++ String.join (children.map (fun kv => kv.2)) ++ "</" ++
           sanitizeElementName tag ++ ">") := by
  refine ⟨sanitizeElementName_eq tag, ?_⟩
  simp only [stringComponentMarkup]
  by_cases hc : String.join (children.map (fun kv => kv.2)) = "" ∧
      isVoidElement (sanitizeElementName tag) = true
  · rw [if_pos hc]
    simp [hc.1, hc.2]
  · rw [if_neg hc]
    have hb : ((String.join (children.map (fun kv => kv.2)) == "") &&
        isVoidElement (sanitizeElementName tag)) = false := by
      rcases Bool.eq_false_or_eq_true ((String.join (children.map (fun kv => kv.2)) == "") &&
          isVoidElement (sanitizeElementName tag)) with ht | hf
      · exfalso
        apply hc
        rw [Bool.and_eq_true, beq_iff_eq] at ht
        exact ht
      · exact hf
    simp [hb]

/-! ## Claim C6: island identity hash determinism -/

/-- Claim C6: the island identity hash is a deterministic function of the
component export name, the component URL, the rendered static html and
the serialized props: equal inputs give equal `astroId` values. -/
theorem astro_id_deterministic (e1 u1 h1 p1 e2 u2 h2 p2 : String)
    (he : e1 = e2) (hu : u1 = u2) (hh : h1 = h2) (hp : p1 = p2) :
    astroIdOf e1 u1 h1 p1 = astroIdOf e2 u2 h2 p2 := by
  subst he hu hh hp
  rfl

/-- Witness: two hydrated occurrences with identical export name, URL,
static html and serialized props hash identically. -/
theorem astro_id_deterministic_witness :
    astroIdOf "default" "/c.vue" "<h1>V</h1>" "a:1;" =
      astroIdOf "default" "/c.vue" "<h1>V</h1>" "a:1;" :=
  astro_id_deterministic "default" "/c.vue" "<h1>V</h1>" "a:1;"
    "default" "/c.vue" "<h1>V</h1>" "a:1;" rfl rfl rfl rfl

/-! ## Claim C7: missing client entrypoint validation -/

theorem markupStep_error_shape (comp : Component) (hydrate : Option String)
    (probable : List String) (validRenderers : List SSRLoadedRenderer)
    (fallback : String) (rendererSel : Option SSRLoadedRenderer) (e : RenderError)
    (h : markupStep comp hydrate probable validRenderers fallback rendererSel = .error e) :
    e = .noClientOnlyHint ∨ e = .noMatchingRenderer ∨ e = .multipleCandidates := by
  unfold markupStep at h
  repeat' split at h
  all_goals simp_all

theorem afterResolution_of_ok (inp : FrameworkInput) (hydrate : Option String)
    (probable : List String) (validRenderers : List SSRLoadedRenderer)
    (rendererSel : Option SSRLoadedRenderer) (inv : List String) (mp : MarkupPhase)
    (hms : markupStep inp.comp hydrate probable validRenderers (fallbackOf inp) rendererSel =
      .ok mp) :
    afterResolution inp hydrate probable validRenderers rendererSel inv =
      match mp.renderer with
      | some r =>
        if clientEntrypointMissing (some r) hydrate then
          .error (.noClientEntrypoint r.name)
        else .ok (finishRender inp mp inv)
      | none => .ok (finishRender inp mp inv) := by
  unfold afterResolution
  rw [hms]

theorem afterResolution_of_error (inp : FrameworkInput) (hydrate : Option String)
    (probable : List String) (validRenderers : List SSRLoadedRenderer)
    (rendererSel : Option SSRLoadedRenderer) (inv : List String) (e : RenderError)
    (hms : markupStep inp.comp hydrate probable validRenderers (fallbackOf inp) rendererSel =
      .error e) :
    afterResolution inp hydrate probable validRenderers rendererSel inv = .error e := by
  unfold afterResolution
  rw [hms]

/-- Claim C7: the NoClientEntrypoint error is raised exactly when, after
the markup phase, a renderer was resolved, a hydration directive is
present, the renderer declares no (truthy) client entrypoint and the
renderer is not the `@astrojs/lit` exception; under every other
combination of these conditions it is not raised. -/
theorem no_client_entrypoint_condition (inp : FrameworkInput) (hydrate : Option String)
    (probable : List String) (validRenderers : List SSRLoadedRenderer)
    (rendererSel : Option SSRLoadedRenderer) (inv : List String) :
    ((∃ n, afterResolution inp hydrate probable validRenderers rendererSel inv =
        .error (.noClientEntrypoint n)) ↔
      (∃ mp, markupStep inp.comp hydrate probable validRenderers (fallbackOf inp) rendererSel =
          .ok mp ∧ clientEntrypointMissing mp.renderer hydrate = true)) ∧
    (∀ (ro : Option SSRLoadedRenderer) (hy : Option String),
      clientEntrypointMissing ro hy = true ↔
        ∃ r, ro = some r ∧ jsTruthyOpt r.clientEntrypoint = false ∧
          r.name ≠ "@astrojs/lit" ∧ hy.isSome = true) := by
  constructor
  · constructor
    · rintro ⟨n, hn⟩
      cases hms : markupStep inp.comp hydrate probable validRenderers (fallbackOf inp)
          rendererSel with
      | error e =>
        rw [afterResolution_of_error inp hydrate probable validRenderers rendererSel inv e hms]
          at hn
        rcases markupStep_error_shape _ _ _ _ _ _ _ hms with h | h | h <;>
          (subst h; exact absurd (Except.error.inj hn) (by simp))
      | ok mp =>
        rw [afterResolution_of_ok inp hydrate probable validRenderers rendererSel inv mp hms]
          at hn
        refine ⟨mp, rfl, ?_⟩
        obtain ⟨ro, mhtml, mattrs, mcalls⟩ := mp
        cases ro with
        | none => simp at hn
        | some r =>
          by_cases hg : clientEntrypointMissing (some r) hydrate = true
          · exact hg
          · rw [show (match (some r : Option SSRLoadedRenderer) with
                | some rr =>
                  if clientEntrypointMissing (some rr) hydrate then
                    Except.error (RenderError.noClientEntrypoint rr.name)
                  else
                    .ok (finishRender inp ⟨some r, mhtml, mattrs, mcalls⟩ inv)
                | none => .ok (finishRender inp ⟨some r, mhtml, mattrs, mcalls⟩ inv)) =
                if clientEntrypointMissing (some r) hydrate then
                  Except.error (RenderError.noClientEntrypoint r.name)
                else .ok (finishRender inp ⟨some r, mhtml, mattrs, mcalls⟩ inv) from rfl,
              if_neg hg] at hn
            simp at hn
    · rintro ⟨mp, hms, hguard⟩
      rw [afterResolution_of_ok inp hydrate probable validRenderers rendererSel inv mp hms]
      obtain ⟨ro, mhtml, mattrs, mcalls⟩ := mp
      cases ro with
      | none => simp [clientEntrypointMissing] at hguard
      | some r =>
        refine ⟨r.name, ?_⟩
        simp only [MarkupPhase.renderer] at hguard ⊢
        rw [if_pos hguard]
  · intro ro hy
    cases ro with
    | none => simp [clientEntrypointMissing]
    | some r =>
      simp [clientEntrypointMissing, Bool.and_eq_true, Bool.not_eq_true', bne_iff_ne,
        and_assoc]

/-! ## Claim C8: Fragment rendering -/

/-- Claim C8: for a component value classified as Fragment, the render
instance returned by `renderComponent` writes exactly the rendered
`default` slot content to the destination and nothing else. -/
theorem fragment_renders_default_slot (inp : FrameworkInput) :
    renderComponentM ComponentValue.fragment inp =
      .ok { chunks := [Chunk.html ((inp.children.lookup "default").getD "")]
            checksInvoked := []
            markupCalls := [] } := rfl

/-! ## Claim C9: page doctype/head injection -/

/-- The property the claim describes: the chunk's string form starts with
a doctype, case-insensitively. -/
def startsWithDoctype (s : String) : Bool :=
  "<!doctype html".toList.isPrefixOf (s.toList.map Char.toLower)

/-- The claim as stated: on a page render, the doctype and head are
prepended exactly when the first chunk does not start with a doctype. -/
def doctypeClaim : Prop :=
  ∀ (compress : Bool) (head : String) (c : Chunk) (rest : List Chunk),
    renderChunksToString true compress head (c :: rest) =
      (if startsWithDoctype (jsStringOfChunk c) then ""
       else doctypeStr compress ++ head) ++ chunksPlainString (c :: rest)

theorem foldWrite_flag_true (isPage compress : Bool) (head : String) :
    ∀ (cs : List Chunk) (s : String),
      (cs.foldl (writeStep isPage compress head) (s, true)).1 = s ++ chunksPlainString cs := by
  intro cs
  induction cs with
  | nil => intro s; simp [chunksPlainString]
  | cons c rest ih =>
    intro s
    have hstep : writeStep isPage compress head (s, true) c =
        (s ++ chunkToString c, true) := by
      cases c <;> simp [writeStep, chunkToString, String.append_empty]
    rw [List.foldl_cons, hstep, ih, chunksPlainString, String.append_assoc]

theorem foldWrite_not_page (compress : Bool) (head : String) :
    ∀ (cs : List Chunk) (s : String) (b : Bool),
      (cs.foldl (writeStep false compress head) (s, b)).1 = s ++ chunksPlainString cs := by
  intro cs
  induction cs with
  | nil => intro s b; simp [chunksPlainString]
  | cons c rest ih =>
    intro s b
    have hstep : writeStep false compress head (s, b) c =
        (s ++ chunkToString c, b) := by
      cases c <;> simp [writeStep, chunkToString, String.append_empty]
    rw [List.foldl_cons, hstep, ih, chunksPlainString, String.append_assoc]

/-- Claim C9 (amended): in `renderComponentToString` with `isPage`, the
doctype (with a newline unless `compressHTML`) plus the pre-computed head
content is prepended before the first written chunk exactly when that
chunk's string form does not CONTAIN a doctype marker (a case-insensitive
substring test, not a starts-with test); later chunks never trigger
prepending, and a non-page render never prepends. -/
theorem page_doctype_injection (compress : Bool) (head : String) (c : Chunk)
    (rest : List Chunk) :
    renderChunksToString true compress head (c :: rest) =
      (if containsDoctype (jsStringOfChunk c) then ""
       else doctypeStr compress ++ head) ++ chunksPlainString (c :: rest) ∧
    renderChunksToString false compress head (c :: rest) =
      chunksPlainString (c :: rest) := by
  constructor
  · have hstep : writeStep true compress head ("", false) c =
        (((if containsDoctype (jsStringOfChunk c) then ""
           else doctypeStr compress ++ head) : String) ++ chunkToString c, true) := by
      by_cases hd : containsDoctype (jsStringOfChunk c) = true
      · cases c <;>
          simp [writeStep, chunkToString, hd, String.empty_append, String.append_empty]
      · have hd2 : containsDoctype (jsStringOfChunk c) = false := by simpa using hd
        cases c <;>
          simp [writeStep, chunkToString, hd2, String.empty_append, String.append_empty]
    rw [renderChunksToString, List.foldl_cons, hstep, foldWrite_flag_true,
      chunksPlainString, String.append_assoc]
  · rw [renderChunksToString, foldWrite_not_page, String.empty_append]

/-- Claim C9 counterexample: a first page chunk that contains a doctype
later in the string does not start with one, yet the code does not
prepend; end to end, a page-level Fragment emitting
`<div></div><!doctype html>` renders unchanged. -/
theorem doctype_injection_counterexample :
    startsWithDoctype "<div></div><!doctype html>" = false ∧
    renderComponentToStringM ComponentValue.fragment
      { comp := Component.nullish, clientOnly := false, hydration := none, isPage := false
        props := [], children := [("default", "<div></div><!doctype html>")]
        slotInstructions := [], renderers := [], renderHTMLElementOutput := "" }
      true true false "" = .ok "<div></div><!doctype html>" ∧
    ¬ doctypeClaim := by
  refine ⟨by decide, by rfl, ?_⟩
  intro h
  have h2 := h true "" (Chunk.html "<div></div><!doctype html>") []
  revert h2
  decide

/-! ## Claim C10: client-only rendering -/

/-- The children of the island chunk of an outcome, if any. -/
def islandChildrenOfOutcome (o : FrameworkOutcome) : Option String :=
  o.chunks.findSome? (fun c =>
    match c with
    | Chunk.island i => some i.children
    | _ => none)

def outcomeIslandChildren (x : Except RenderError FrameworkOutcome) : Option String :=
  match x with
  | .ok o => islandChildrenOfOutcome o
  | .error _ => none

/-- The claim as stated: with directive `only` and a resolved renderer,
the render succeeds with no static-markup call and the island's hosted
content is the rendered fallback slot content followed by the
unrendered-slot templates. -/
def clientOnlyClaim (inp : FrameworkInput) (h : Hydration) (r : SSRLoadedRenderer) : Prop :=
  inp.hydration = some h → h.directive = "only" →
  resolveOnly h.value (some h.componentUrl) inp.renderers = some r →
  ∃ o, renderFrameworkComponentM inp = .ok o ∧ o.markupCalls = [] ∧
    islandChildrenOfOutcome o =
      some (islandChildren (fallbackOf inp) inp.children r.ssr.supportsAstroStaticSlot true)

def hOnly : Hydration :=
  { directive := "only", value := none, componentExport := "default"
    componentUrl := "/c.svelte" }

def clientOnlyInput : FrameworkInput :=
  { comp := Component.str "my-tag", clientOnly := true, hydration := some hOnly
    isPage := false, props := [], children := [], slotInstructions := []
    renderers := [demoSvelte], renderHTMLElementOutput := "" }

/-- Claim C10 counterexample: a `client:only` string component with an
empty fallback slot; the resolved renderer never renders, but the
island's hosted content is the custom-element markup `<my-tag></my-tag>`,
not the (empty) fallback content. -/
theorem client_only_counterexample :
    resolveOnly hOnly.value (some hOnly.componentUrl) clientOnlyInput.renderers =
      some demoSvelte ∧
    ¬ clientOnlyClaim clientOnlyInput hOnly demoSvelte := by
  refine ⟨by decide, ?_⟩
  intro hcl
  obtain ⟨o, ho, hm, hc⟩ := hcl rfl rfl (by decide)
  have h1 : islandChildrenOfOutcome o = some "<my-tag></my-tag>" := by
    have h2 := congrArg outcomeIslandChildren ho
    rw [show outcomeIslandChildren (renderFrameworkComponentM clientOnlyInput) =
        some "<my-tag></my-tag>" from rfl] at h2
    exact h2.symm
  rw [h1] at hc
  exact absurd hc (by decide)

theorem renderFramework_only_path (inp : FrameworkInput) (h : Hydration)
    (hhyd : inp.hydration = some h) (hdir : h.directive = "only")
    (hg : (componentFalsy inp.comp && !inp.clientOnly) = false) :
    renderFrameworkComponentM inp =
      afterResolution inp (some "only")
        (guessRenderers (some h.componentUrl))
        (inp.renderers.filter (fun rr => rr.name != "astro:jsx"))
        (resolveOnly h.value (some h.componentUrl) inp.renderers) [] := by
  unfold renderFrameworkComponentM
  rw [hg, hhyd]
  simp [hdir]

/-- Claim C10 (amended): when the hydration directive is `only` and a
renderer is resolved (with the client-entrypoint validation passing), no
capability-check runs and the renderer's `renderToStaticMarkup` is never
invoked; the server-side html is the rendered `fallback` slot content
(empty when no fallback slot is provided), except that for a string
component value whose fallback render is empty the custom-element string
markup is used instead; the island's hosted content is that html followed
by the unrendered-slot templates. -/
theorem client_only_render (inp : FrameworkInput) (h : Hydration) (r : SSRLoadedRenderer)
    (hhyd : inp.hydration = some h) (hdir : h.directive = "only")
    (hguard : ¬(componentFalsy inp.comp = true ∧ inp.clientOnly = false))
    (hres : resolveOnly h.value (some h.componentUrl) inp.renderers = some r)
    (hentry : clientEntrypointMissing (some r) (some h.directive) = false) :
    ∃ island : Island,
      renderFrameworkComponentM inp =
        .ok { chunks := inp.slotInstructions ++ [Chunk.directive h, Chunk.island island]
              checksInvoked := []
              markupCalls := [] } ∧
      island.children =
        islandChildren
          (match inp.comp with
           | .str s =>
             if fallbackOf inp == "" then stringComponentMarkup s inp.props inp.children
             else fallbackOf inp
           | _ => fallbackOf inp)
          inp.children r.ssr.supportsAstroStaticSlot true := by
  have hg : (componentFalsy inp.comp && !inp.clientOnly) = false := by
    cases hcf : componentFalsy inp.comp
    · rfl
    · cases hco : inp.clientOnly
      · exact absurd ⟨hcf, hco⟩ hguard
      · simp
  have hentry2 : clientEntrypointMissing (some r) (some "only") = false := by
    rw [← hdir]; exact hentry
  have hms : markupStep inp.comp (some "only")
      (guessRenderers (some h.componentUrl))
      (inp.renderers.filter (fun rr => rr.name != "astro:jsx")) (fallbackOf inp) (some r) =
      Except.ok ⟨some r, fallbackOf inp, none, []⟩ := by
    simp [markupStep]
  rw [renderFramework_only_path inp h hhyd hdir hg, hres,
    afterResolution_of_ok inp (some "only") (guessRenderers (some h.componentUrl))
      (inp.renderers.filter (fun rr => rr.name != "astro:jsx")) (some r) []
      ⟨some r, fallbackOf inp, none, []⟩ hms]
  simp only [MarkupPhase.renderer]
  rw [hentry2]
  simp only [Bool.false_eq_true, if_false, finishRender, hhyd]
  exact ⟨_, rfl, rfl⟩

/-- Witness for the amended client-only rendering at a concrete input:
the island hosts the custom-element markup (fallback empty, string
component). -/
theorem client_only_render_witness :
    ∃ island : Island,
      renderFrameworkComponentM clientOnlyInput =
        .ok { chunks := [Chunk.directive hOnly, Chunk.island island]
              checksInvoked := []
              markupCalls := [] } ∧
      island.children = "<my-tag></my-tag>" := by
  obtain ⟨island, h1, h2⟩ := client_only_render clientOnlyInput hOnly demoSvelte rfl rfl
    (by decide) (by decide) (by decide)
  refine ⟨island, ?_, ?_⟩
  · exact h1
  · rw [h2]; decide

end AstroRender
